import Mathlib

/-!
Verification development for the Cerebro Electron main process
(`src/main.ts`): the Python-backend process supervisor, the request
bridge (`makeBackendRequest`) and the SSE stream bridge (the
`STREAM_START` / `STREAM_CANCEL` IPC handlers).

The embedding is shallow: module-level mutable state
(`backendPort`, `backendStatus`, `isIntentionalShutdown`,
`restartCount`, `activeStreams`) becomes explicit state records that
the modelled functions consume and return; asynchronous I/O outcomes
(spawn results, health-check answers, HTTP responses, socket errors)
become oracle parameters; JavaScript strings become `List Char`.
-/

set_option linter.unusedVariables false

namespace Cerebro

/-- Lifecycle status of the backend process, `BackendStatus` in
`types/ipc.ts`: `'starting' | 'healthy' | 'unhealthy' | 'stopped'`. -/
inductive BackendStatus
  | stopped
  | starting
  | healthy
  | unhealthy
deriving DecidableEq, Repr

/-- Module-level supervisor state of `main.ts`: `backendPort`,
`backendStatus`, `isIntentionalShutdown`, `restartCount`. -/
structure SupervisorState where
  backendPort : Option Nat
  backendStatus : BackendStatus
  isIntentionalShutdown : Bool
  restartCount : Nat
deriving DecidableEq, Repr

/-- Value of `MAX_RESTARTS` in `main.ts`. -/
def MAX_RESTARTS : Nat := 3

/-- Initial module-level state: `pythonProcess = null`, `backendPort = null`,
`backendStatus = 'stopped'`, `isIntentionalShutdown = false`, `restartCount = 0`. -/
def initialState : SupervisorState :=
  { backendPort := none
    backendStatus := .stopped
    isIntentionalShutdown := false
    restartCount := 0 }

/-- Timeout constant of `waitForHealthCheck` (`const timeout = 15_000`). -/
def healthTimeoutMs : Nat := 15000

/-- Poll interval of `waitForHealthCheck` (`const interval = 200`). -/
def healthIntervalMs : Nat := 200

/-- Rejection message of `waitForHealthCheck`. -/
def healthTimeoutMsg : String := "Backend health check timed out after 15s"

/-- Poll loop of `waitForHealthCheck`, modelled with nominal timing: the
n-th call of `checkHealth` happens at time `n * 200` ms (checks are
instantaneous in the model), and `health n` is its result.  At the entry of
each iteration the code rejects when the elapsed time exceeds the 15 s
budget (`Date.now() - start > timeout`), otherwise it polls and either
resolves or schedules the next iteration 200 ms later.  The structural
`fuel` argument only bounds the recursion; its zero branch is unreachable
because the timeout test fires first (at `n = 76` we have
`200 * 76 > 15000`). -/
def pollFrom (health : Nat → Bool) : Nat → Nat → Except String Nat
  | n, fuel =>
    if healthIntervalMs * n > healthTimeoutMs then
      .error healthTimeoutMsg
    else if health n then
      .ok n
    else
      match fuel with
      | 0 => .error healthTimeoutMsg
      | fuel + 1 => pollFrom health (n + 1) fuel

/-- Model of `waitForHealthCheck(port)`: resolves with the index of the
first successful poll, rejects with the timeout message when no poll
succeeds within the budget. -/
def waitForHealthCheck (health : Nat → Bool) : Except String Nat :=
  pollFrom health 0 (healthTimeoutMs / healthIntervalMs + 1)

/-- Result of one run of `startPythonBackend`: the supervisor state
afterwards, the running total of `spawn()` calls, and whether the
returned promise resolved or rejected. -/
structure StartResult where
  st : SupervisorState
  spawns : Nat
  result : Except String Unit
deriving Repr

/-- Model of `startPythonBackend()`.  `port` stands for the port obtained
from `getFreePort()`, `health` for the outcomes of the successive
`checkHealth` polls, and `spawns` is a ghost counter of `spawn()` calls.
The source sets `backendStatus = 'starting'`, spawns the process, records
`pythonProcess` and `backendPort`, attaches the crash handler, then awaits
`waitForHealthCheck(port)`; only on its success does it set
`backendStatus = 'healthy'` — on rejection the error propagates and the
status stays `'starting'`. -/
def startPythonBackend (st : SupervisorState) (spawns : Nat) (port : Nat)
    (health : Nat → Bool) : StartResult :=
  let st1 := { st with backendStatus := BackendStatus.starting }
  let spawns1 := spawns + 1
  let st2 := { st1 with backendPort := some port }
  match waitForHealthCheck health with
  | .ok _ => { st := { st2 with backendStatus := .healthy }, spawns := spawns1, result := .ok () }
  | .error e => { st := st2, spawns := spawns1, result := .error e }

/-- Supervisor state plus the ghost count of `spawn()` calls made so far. -/
structure World where
  st : SupervisorState
  spawns : Nat
deriving Repr

/-- Body of the `once('exit')` listener installed by `attachCrashHandler()`:
return immediately when `isIntentionalShutdown` is set; otherwise set
`backendStatus = 'unhealthy'` and, only when `restartCount < MAX_RESTARTS`,
increment `restartCount` and call `startPythonBackend()` again (its
rejection is caught and only logged). -/
def crashExitListener (w : World) (port : Nat) (health : Nat → Bool) : World :=
  if w.st.isIntentionalShutdown then w
  else
    let st1 := { w.st with backendStatus := BackendStatus.unhealthy }
    if st1.restartCount < MAX_RESTARTS then
      let st2 := { st1 with restartCount := st1.restartCount + 1 }
      let r := startPythonBackend st2 w.spawns port health
      { st := r.st, spawns := r.spawns }
    else
      { w with st := st1 }

/-- The `app.on('before-quit')` handler: set `isIntentionalShutdown = true`,
then `await stopPythonBackend()`.  `procAlive` tells whether a live,
not-yet-signalled child exists; in that case the stop observes the child's
exit and sets `backendStatus = 'stopped'`, otherwise it resolves
immediately leaving the status unchanged. -/
def beforeQuitHandler (w : World) (procAlive : Bool) : World :=
  let st1 := { w.st with isIntentionalShutdown := true }
  if procAlive then { w with st := { st1 with backendStatus := BackendStatus.stopped } }
  else { w with st := st1 }

/-- Events that drive the supervisor after the initial launch: an `exit`
event of the child process (with the oracle data a restart would consume),
or the application's `before-quit`. -/
inductive AppEvent
  | procExit (port : Nat) (health : Nat → Bool)
  | beforeQuit (procAlive : Bool)

/-- One supervisor step. -/
def stepApp (w : World) : AppEvent → World
  | .procExit port health => crashExitListener w port health
  | .beforeQuit alive => beforeQuitHandler w alive

/-- Run a sequence of supervisor events. -/
def runEvents (w : World) : List AppEvent → World
  | [] => w
  | e :: es => runEvents (stepApp w e) es

/-- The initial launch performed by the `app.on('ready')` handler:
`startPythonBackend()` from the initial module state (its rejection is
caught and only logged). -/
def boot (port : Nat) (health : Nat → Bool) : World :=
  let r := startPythonBackend initialState 0 port health
  { st := r.st, spawns := r.spawns }

/-- Child process handle as `stopPythonBackend` sees it: Node's
`ChildProcess.killed` flag, which becomes `true` as soon as any signal has
been successfully sent with `kill()`. -/
structure ProcHandle where
  killed : Bool
deriving DecidableEq, Repr

/-- Signals sent to the child process. -/
inductive KillSignal
  | sigterm
  | sigkill
deriving DecidableEq, Repr

/-- Observable outcome of one `stopPythonBackend()` call: the signals it
sent, in order, and whether it waited for the child's `exit` event before
resolving. -/
structure StopResult where
  signals : List KillSignal
  waitedForExit : Bool
deriving DecidableEq, Repr

/-- Model of `stopPythonBackend()`.  The source resolves immediately when
`pythonProcess` is `null` or `pythonProcess.killed` is set.  Otherwise it
schedules a 3000 ms timer whose callback sends SIGKILL only `if
(!proc.killed)`, registers a `once('exit')` listener that clears the timer
and resolves, and sends SIGTERM.  Sending SIGTERM sets `proc.killed` to
`true`, so when the child is still alive at the 3 s mark
(`exitsInGrace = false`) the timer's test reads that flag as `true`. -/
def stopPythonBackend (p : Option ProcHandle) (exitsInGrace : Bool) : StopResult :=
  match p with
  | none => { signals := [], waitedForExit := false }
  | some proc =>
    if proc.killed then { signals := [], waitedForExit := false }
    else
      let procAfterTerm : ProcHandle := { killed := true }
      if exitsInGrace then
        { signals := [KillSignal.sigterm], waitedForExit := true }
      else
        { signals := [KillSignal.sigterm]
            ++ (if !procAfterTerm.killed then [KillSignal.sigkill] else [])
          waitedForExit := true }

/-- Request envelope, `BackendRequest` in `types/ipc.ts`.  The body is the
JSON-encoded payload (`JSON.stringify(request.body)`), when present. -/
structure BackendRequest where
  method : String
  path : String
  body : Option String
  headers : List (String × String)
  timeout : Option Nat
deriving DecidableEq, Repr

/-- Outcome of the underlying `http.request` call, an oracle for the model:
a response (with possibly-undefined status code and accumulated body
text), a socket `'error'` event, or the `'timeout'` event. -/
inductive ReqOutcome
  | response (statusCode : Option Nat) (body : String)
  | socketError (msg : String)
  | timedOut
deriving DecidableEq, Repr

/-- Payload of a response envelope: `{error: message}` objects built by the
handler itself, a successfully JSON-parsed body, or the raw body text when
`JSON.parse` throws. -/
inductive RespData
  | errObj (error : String)
  | jsonVal (raw : String)
  | rawText (raw : String)
deriving DecidableEq, Repr

/-- Response envelope, `BackendResponse` in `types/ipc.ts`. -/
structure BackendResponse where
  ok : Bool
  status : Nat
  data : RespData
deriving DecidableEq, Repr

/-- Full observable outcome of one `makeBackendRequest` call: the envelope
it resolves with, whether an `http.request` was issued, and the supervisor
state afterwards (the source never writes any supervisor variable in this
function, so every branch returns the input state). -/
structure RequestRun where
  resp : BackendResponse
  httpIssued : Bool
  stAfter : SupervisorState
deriving DecidableEq, Repr

/-- Model of `makeBackendRequest(request)`.  When `backendPort === null ||
backendStatus !== 'healthy'` it resolves immediately with
`{ok:false, status:0, data:{error:'Backend not available'}}` and issues no
HTTP request.  Otherwise the response handler resolves with
`ok = statusCode !== undefined && 200 <= statusCode < 300`,
`status = statusCode ?? 0` and the parsed (or raw) body; the `'error'`
listener resolves with `{ok:false, status:0, data:{error:message}}`, and
the `'timeout'` listener with `{ok:false, status:0,
data:{error:'Request timed out'}}`.  `parseOk body` tells whether
`JSON.parse(body)` succeeds. -/
def makeBackendRequest (st : SupervisorState) (req : BackendRequest)
    (outcome : ReqOutcome) (parseOk : String → Bool) : RequestRun :=
  if st.backendPort = none ∨ st.backendStatus ≠ BackendStatus.healthy then
    { resp := { ok := false, status := 0, data := .errObj "Backend not available" }
      httpIssued := false
      stAfter := st }
  else
    match outcome with
    | .response sc body =>
        { resp :=
            { ok := sc.isSome && decide (200 ≤ sc.getD 0) && decide (sc.getD 0 < 300)
              status := sc.getD 0
              data := if parseOk body then .jsonVal body else .rawText body }
          httpIssued := true
          stAfter := st }
    | .socketError m =>
        { resp := { ok := false, status := 0, data := .errObj m }
          httpIssued := true
          stAfter := st }
    | .timedOut =>
        { resp := { ok := false, status := 0, data := .errObj "Request timed out" }
          httpIssued := true
          stAfter := st }

/-- Events sent to a stream's renderer channel, `StreamEvent` in
`types/ipc.ts` (`event: 'data' | 'error' | 'end'`).  Data payloads are the
unwrapped SSE line contents; error payloads carry `err.message`. -/
inductive StreamEvent
  | data (payload : List Char)
  | error (msg : String)
  | endEvent
deriving DecidableEq, Repr

/-- Whitespace recognised by JavaScript `String.prototype.trim`, restricted
to the characters that can occur here (ASCII whitespace plus NBSP and the
BOM; the remaining Unicode space separators are omitted). -/
def jsWs (c : Char) : Bool :=
  c = ' ' || c = '\t' || c = '\n' || c = '\x0b' || c = '\x0c' || c = '\r'
    || c = '\u00A0' || c = '\uFEFF'

/-- Model of `line.trim()`: drop leading then trailing whitespace. -/
def trimStr (l : List Char) : List Char :=
  ((l.dropWhile jsWs).reverse.dropWhile jsWs).reverse

/-- The SSE marker `'data: '` (six characters). -/
def dataMarker : List Char := "data: ".toList

/-- Body of the per-line step inside the `res.on('data')` handler of the
`STREAM_START` IPC handler: `const trimmed = line.trim(); if (trimmed ===
'') continue; if (trimmed.startsWith('data: ')) send({event:'data', data:
trimmed.slice(6)})`; every other line is ignored. -/
def processLine (line : List Char) : Option StreamEvent :=
  let trimmed := trimStr line
  if trimmed = [] then none
  else if dataMarker.isPrefixOf trimmed then some (.data (trimmed.drop 6))
  else none

/-- Prepend a character to the first element of a split-result list; the
empty case cannot arise from `splitOnNl`, which never returns `[]`. -/
def consHead (c : Char) : List (List Char) → List (List Char)
  | [] => [[c]]
  | r :: rs => (c :: r) :: rs

/-- Model of JavaScript `buffer.split('\n')`: split at every newline; a
trailing newline yields a final empty piece and the empty string yields
`[""]`. -/
def splitOnNl : List Char → List (List Char)
  | [] => [[]]
  | c :: cs =>
      if c = '\n' then [] :: splitOnNl cs
      else consHead c (splitOnNl cs)

/-- Body of the `res.on('data')` handler of the `STREAM_START` IPC handler:
`buffer += chunk; const lines = buffer.split('\n'); buffer = lines.pop()
?? '';` then the per-line loop over the remaining (complete) lines.
Returns the new buffer and the events sent, in order. -/
def handleChunk (buffer chunk : List Char) : List Char × List StreamEvent :=
  let combined := buffer ++ chunk
  let lines := splitOnNl combined
  let newBuffer := lines.getLast?.getD []
  let complete := lines.dropLast
  (newBuffer, complete.filterMap processLine)

/-- Fold `handleChunk` over a sequence of arriving chunks, collecting the
emitted events in arrival order. -/
def runChunks (buffer : List Char) : List (List Char) → List Char × List StreamEvent
  | [] => (buffer, [])
  | c :: cs =>
      let r := handleChunk buffer c
      let rest := runChunks r.1 cs
      (rest.1, r.2 ++ rest.2)

/-- Events sent on a stream's channel for a full upstream life: the chunks
delivered to `res.on('data')` starting from the empty buffer, followed by
the `res.on('end')` handler, which sends exactly one `'end'` event (and
discards whatever is left in the buffer). -/
def streamRun (chunks : List (List Char)) : List StreamEvent :=
  (runChunks [] chunks).2 ++ [StreamEvent.endEvent]

/-- Per-stream bridge state: the SSE line buffer, whether the streamId is
still in the `activeStreams` table, and whether the upstream connection is
live.  `upstreamLive = false` models Node's guarantee that a destroyed or
completed connection fires no further `'data'`, `'end'` or `'error'`
handlers. -/
structure BridgeState where
  buffer : List Char
  inTable : Bool
  upstreamLive : Bool
deriving DecidableEq, Repr

/-- Upstream happenings on one stream's connection. -/
inductive UpstreamEvent
  | chunk (bytes : List Char)
  | resEnd
  | resError (msg : String)
  | reqError (msg : String)

/-- One upstream event, dispatched to the handlers registered by the
`STREAM_START` IPC handler.  `res.on('data')` runs `handleChunk`;
`res.on('end')` deletes the table entry and sends one `'end'` event;
`res.on('error')` and `req.on('error')` delete the table entry and send
`'error'` then `'end'`.  A dead connection delivers nothing. -/
def stepUpstream (s : BridgeState) : UpstreamEvent → BridgeState × List StreamEvent
  | .chunk bytes =>
      if s.upstreamLive then
        let r := handleChunk s.buffer bytes
        ({ s with buffer := r.1 }, r.2)
      else (s, [])
  | .resEnd =>
      if s.upstreamLive then
        ({ s with inTable := false, upstreamLive := false }, [StreamEvent.endEvent])
      else (s, [])
  | .resError m =>
      if s.upstreamLive then
        ({ s with inTable := false, upstreamLive := false },
          [StreamEvent.error m, StreamEvent.endEvent])
      else (s, [])
  | .reqError m =>
      if s.upstreamLive then
        ({ s with inTable := false, upstreamLive := false },
          [StreamEvent.error m, StreamEvent.endEvent])
      else (s, [])

/-- Deliver a sequence of upstream events, collecting the emitted stream
events in order. -/
def runUpstream (s : BridgeState) : List UpstreamEvent → BridgeState × List StreamEvent
  | [] => (s, [])
  | e :: es =>
      let r := stepUpstream s e
      let rest := runUpstream r.1 es
      (rest.1, r.2 ++ rest.2)

/-- The `STREAM_CANCEL` IPC handler: look the streamId up in
`activeStreams`; when present, `req.destroy()` the upstream connection
(which fires no events: `destroy` is called without an error argument) and
delete the table entry; otherwise do nothing. -/
def cancelStream (s : BridgeState) : BridgeState :=
  if s.inTable then { s with inTable := false, upstreamLive := false } else s

/-- Prefix of the `STREAM_START` IPC handler: the generated `streamId` is
always returned.  When `backendPort === null || backendStatus !==
'healthy'` the handler synchronously sends one `'error'` event with
payload `'Backend not available'` followed by one `'end'` event on the
stream's channel and returns the id without issuing any `http.request`;
otherwise it opens the upstream request (emitting nothing yet).  Returns
(returned id, events sent synchronously, upstream connection opened). -/
def streamStartHandler (st : SupervisorState) (streamId : String) :
    String × List StreamEvent × Bool :=
  if st.backendPort = none ∨ st.backendStatus ≠ BackendStatus.healthy then
    (streamId, [StreamEvent.error "Backend not available", StreamEvent.endEvent], false)
  else
    (streamId, [], true)

/-- Proof-internal variant of `splitOnNl` that keeps the complete lines and
the trailing partial line separate: `consLine` extends the first line of an
already-split tail with one more character. -/
def consLine (c : Char) : List (List Char) × List Char → List (List Char) × List Char
  | ([], rest) => ([], c :: rest)
  | (q :: qs, rest) => ((c :: q) :: qs, rest)

/-- Split into (complete lines, trailing partial line); related to
`splitOnNl` by `splitOnNl_eq_splitNl`. -/
def splitNl : List Char → List (List Char) × List Char
  | [] => ([], [])
  | c :: cs =>
      if c = '\n' then ([] :: (splitNl cs).1, (splitNl cs).2)
      else consLine c (splitNl cs)

/-- Invariant tying the ghost spawn counter to the restart counter: every
spawn beyond the initial launch was paid for by one increment of
`restartCount`, and the counter never exceeds `MAX_RESTARTS`. -/
def WorldInv (w : World) : Prop :=
  w.spawns ≤ w.st.restartCount + 1 ∧ w.st.restartCount ≤ MAX_RESTARTS

theorem splitOnNl_eq_splitNl (l : List Char) :
    splitOnNl l = (splitNl l).1 ++ [(splitNl l).2] := by
  induction l with
  | nil => rfl
  | cons c cs ih =>
    by_cases hc : c = '\n'
    · simp [splitOnNl, splitNl, hc, ih]
    · simp only [splitOnNl, splitNl, hc, if_false]
      rcases h : splitNl cs with ⟨p1, p2⟩
      rw [h] at ih
      rcases p1 with _ | ⟨q, qs⟩
      · simp [consLine, consHead, ih]
      · simp [consLine, consHead, ih]

theorem splitNl_ne_nil_parts (l : List Char) : splitOnNl l ≠ [] := by
  rw [splitOnNl_eq_splitNl]; simp

theorem noNl_splitNl (l : List Char) (h : '\n' ∉ l) : splitNl l = ([], l) := by
  induction l with
  | nil => rfl
  | cons c cs ih =>
    have hc : c ≠ '\n' := fun hh => h (hh ▸ List.mem_cons_self c cs)
    have hcs : '\n' ∉ cs := fun hh => h (List.mem_cons_of_mem c hh)
    simp [splitNl, hc, ih hcs, consLine]

theorem splitNl_partial_noNl (l : List Char) : '\n' ∉ (splitNl l).2 := by
  induction l with
  | nil => simp [splitNl]
  | cons c cs ih =>
    by_cases hc : c = '\n'
    · simpa [splitNl, hc] using ih
    · simp only [splitNl, hc, if_false]
      rcases h : splitNl cs with ⟨p1, p2⟩
      rw [h] at ih
      rcases p1 with _ | ⟨q, qs⟩
      · simp only [consLine]
        intro hmem
        rcases List.mem_cons.mp hmem with h1 | h2
        · exact hc h1.symm
        · exact ih h2
      · simpa [consLine] using ih

theorem splitNl_append (x y : List Char) :
    splitNl (x ++ y)
      = ((splitNl x).1 ++ (splitNl ((splitNl x).2 ++ y)).1,
         (splitNl ((splitNl x).2 ++ y)).2) := by
  induction x with
  | nil => simp [splitNl]
  | cons c x ih =>
    by_cases hc : c = '\n'
    · simp [splitNl, hc, ih]
    · simp only [List.cons_append, splitNl, hc, if_false, List.append_eq]
      rw [ih]
      rcases h1 : splitNl x with ⟨p1, p2⟩
      rcases p1 with _ | ⟨q, qs⟩
      · simp only [consLine, List.nil_append]
        rcases h2 : splitNl (p2 ++ y) with ⟨r1, r2⟩
        rcases r1 with _ | ⟨r, rs⟩ <;> simp [consLine, splitNl, hc, h2]
      · simp [consLine, h1]

theorem handleChunk_eq (buffer chunk : List Char) :
    handleChunk buffer chunk
      = ((splitNl (buffer ++ chunk)).2,
         (splitNl (buffer ++ chunk)).1.filterMap processLine) := by
  simp only [handleChunk]
  rw [splitOnNl_eq_splitNl]
  simp [List.dropLast_concat, List.getLast?_concat]

theorem runChunks_spec (cs : List (List Char)) :
    ∀ buffer : List Char, '\n' ∉ buffer →
      runChunks buffer cs
        = ((splitNl (buffer ++ cs.flatten)).2,
           (splitNl (buffer ++ cs.flatten)).1.filterMap processLine) := by
  induction cs with
  | nil =>
    intro buffer hb
    simp [runChunks, noNl_splitNl buffer hb]
  | cons c cs ih =>
    intro buffer hb
    simp only [runChunks, handleChunk_eq]
    rw [ih _ (splitNl_partial_noNl (buffer ++ c))]
    rw [List.flatten_cons, show buffer ++ (c ++ cs.flatten) = (buffer ++ c) ++ cs.flatten by
      simp [List.append_assoc]]
    rw [splitNl_append (buffer ++ c) cs.flatten]
    simp [List.filterMap_append]

theorem processLine_some (l : List Char) (e : StreamEvent)
    (h : processLine l = some e) : ∃ p, e = StreamEvent.data p := by
  unfold processLine at h
  by_cases h1 : trimStr l = [] <;> simp [h1] at h
  exact ⟨_, h.2.symm⟩

theorem runUpstream_dead (evs : List UpstreamEvent) :
    ∀ s : BridgeState, s.upstreamLive = false → runUpstream s evs = (s, []) := by
  induction evs with
  | nil => intro s h; rfl
  | cons e es ih =>
    intro s h
    have hstep : stepUpstream s e = (s, []) := by
      cases e <;> simp [stepUpstream, h]
    simp [runUpstream, hstep, ih s h]

/-- C4: on an open stream, chunks are buffered and split on newline
boundaries with the last (possibly incomplete) line retained across
chunks; the emitted events are exactly one `Data` per complete
`data: `-prefixed line of the concatenated byte stream, in arrival order,
all other lines ignored, followed by exactly one terminal `End` event with
nothing after it — chunk handlers themselves emit only `Data` events.  In
particular `"data: a\n\n"`, `"data: b\n\n"` then end yield
`Data("a")`, `Data("b")`, `End`, and a line split across chunks
(`"data: a"` then `"b\n\n"`) yields a single `Data("ab")`. -/
theorem C4_stream_line_events :
    (∀ chunks : List (List Char),
        streamRun chunks
          = ((splitOnNl chunks.flatten).dropLast.filterMap processLine)
              ++ [StreamEvent.endEvent])
  ∧ (∀ (chunks : List (List Char)) (e : StreamEvent),
        e ∈ (runChunks [] chunks).2 → ∃ p, e = StreamEvent.data p)
  ∧ streamRun ["data: a\n\n".toList, "data: b\n\n".toList]
      = [StreamEvent.data "a".toList, StreamEvent.data "b".toList, StreamEvent.endEvent]
  ∧ streamRun ["data: a".toList, "b\n\n".toList]
      = [StreamEvent.data "ab".toList, StreamEvent.endEvent] := by
  refine ⟨?_, ?_, by decide, by decide⟩
  · intro chunks
    unfold streamRun
    rw [runChunks_spec chunks [] (by simp)]
    rw [splitOnNl_eq_splitNl, List.dropLast_concat]
    simp
  · intro chunks e he
    rw [runChunks_spec chunks [] (by simp)] at he
    simp only [List.nil_append] at he
    rcases List.mem_filterMap.mp he with ⟨l, _, hl⟩
    exact processLine_some l e hl

theorem C4_stream_line_events_witness :
    (StreamEvent.data "a".toList ∈ (runChunks [] ["data: a\n".toList]).2)
  ∧ (∃ p, StreamEvent.data "a".toList = StreamEvent.data p) :=
  ⟨by decide, C4_stream_line_events.2.1 ["data: a\n".toList] _ (by decide)⟩

/-- C9: when the upstream response ends while the buffer still holds an
incomplete final line (no trailing newline), that content is silently
discarded — appending a trailing newline-free chunk changes nothing in the
emitted events, and only the terminal `End` is delivered for it. -/
theorem C9_incomplete_final_line_discarded :
    ∀ (cs : List (List Char)) (t : List Char), '\n' ∉ t →
      streamRun (cs ++ [t]) = streamRun cs := by
  intro cs t ht
  unfold streamRun
  rw [runChunks_spec cs [] (by simp), runChunks_spec (cs ++ [t]) [] (by simp)]
  have h2 : '\n' ∉ (splitNl cs.flatten).2 ++ t := by
    intro hm
    rcases List.mem_append.mp hm with h | h
    · exact splitNl_partial_noNl cs.flatten h
    · exact ht h
  rw [show (cs ++ [t]).flatten = cs.flatten ++ t by simp]
  simp only [List.nil_append]
  rw [splitNl_append cs.flatten t, noNl_splitNl _ h2]
  simp

theorem C9_incomplete_final_line_discarded_witness :
    streamRun (["data: a\n".toList] ++ ["data: partial".toList])
      = streamRun ["data: a\n".toList] :=
  C9_incomplete_final_line_discarded ["data: a\n".toList] "data: partial".toList
    (by decide)

/-- C5: cancelling a stream that is in the active-stream table aborts the
upstream connection and removes the table entry, and afterwards no event
of any kind is emitted on that stream's channel, whatever the upstream
connection would have delivered. -/
theorem C5_cancel_silences_stream :
    ∀ s : BridgeState, s.inTable = true →
      (cancelStream s).inTable = false
      ∧ (cancelStream s).upstreamLive = false
      ∧ ∀ evs : List UpstreamEvent, (runUpstream (cancelStream s) evs).2 = [] := by
  intro s h
  have hc : cancelStream s = { s with inTable := false, upstreamLive := false } := by
    simp [cancelStream, h]
  refine ⟨by simp [hc], by simp [hc], ?_⟩
  intro evs
  rw [runUpstream_dead evs _ (by simp [hc])]

theorem C5_cancel_silences_stream_witness :
    (cancelStream ⟨[], true, true⟩).inTable = false
  ∧ (cancelStream ⟨[], true, true⟩).upstreamLive = false
  ∧ (runUpstream (cancelStream ⟨[], true, true⟩)
      [UpstreamEvent.chunk "data: z\n".toList, UpstreamEvent.resEnd]).2 = [] := by
  have h := C5_cancel_silences_stream ⟨[], true, true⟩ rfl
  exact ⟨h.1, h.2.1, h.2.2 _⟩

/-- C7: the `STREAM_START` handler always returns the generated streamId
token, and when the backend is unavailable (no port recorded or status not
`'healthy'`) it synchronously emits exactly one `Error` event followed by
exactly one `End` event on that id's channel and opens no upstream
connection; the model is a total function, so the call never rejects. -/
theorem C7_beginStream_unavailable :
    ∀ (st : SupervisorState) (streamId : String),
      (streamStartHandler st streamId).1 = streamId
      ∧ ((st.backendPort = none ∨ st.backendStatus ≠ BackendStatus.healthy) →
          (streamStartHandler st streamId).2.1
              = [StreamEvent.error "Backend not available", StreamEvent.endEvent]
          ∧ (streamStartHandler st streamId).2.2 = false) := by
  intro st sid
  constructor
  · unfold streamStartHandler
    split <;> rfl
  · intro h
    unfold streamStartHandler
    rw [if_pos h]
    exact ⟨rfl, rfl⟩

theorem dropWhile_len_le (p : Char → Bool) (l : List Char) :
    (l.dropWhile p).length ≤ l.length := by
  induction l with
  | nil => simp
  | cons c cs ih =>
    rw [List.dropWhile_cons]
    by_cases h : p c
    · simp only [h, if_true, List.length_cons]
      omega
    · simp [h]

theorem dropWhile_idem (p : Char → Bool) (l : List Char) :
    (l.dropWhile p).dropWhile p = l.dropWhile p := by
  induction l with
  | nil => rfl
  | cons c cs ih =>
    rw [List.dropWhile_cons]
    by_cases h : p c
    · simpa [h] using ih
    · simp [List.dropWhile_cons, h]

theorem head_not_of_dropWhile_eq (p : Char → Bool) (l : List Char) (a : Char)
    (t : List Char) (h : l.dropWhile p = a :: t) : p a = false := by
  by_contra hcon
  have hpa : p a = true := by
    cases hh : p a
    · exact absurd hh hcon
    · rfl
  have hidem := dropWhile_idem p l
  rw [h, List.dropWhile_cons, hpa, if_pos rfl] at hidem
  have := dropWhile_len_le p t
  have hlen : (a :: t).length = t.length + 1 := by simp
  rw [hidem] at this
  omega

theorem trimStr_reverse_eq (l : List Char) :
    (trimStr l).reverse = (l.dropWhile jsWs).reverse.dropWhile jsWs := by
  simp [trimStr]

theorem trimStr_prefix_left (l : List Char) :
    ∃ r, trimStr l ++ r = l.dropWhile jsWs := by
  obtain ⟨u, hu⟩ := List.dropWhile_suffix (l := (l.dropWhile jsWs).reverse) jsWs
  refine ⟨u.reverse, ?_⟩
  have := congrArg List.reverse hu
  simpa [trimStr] using this

theorem trimStr_dropWhile_left (l : List Char) :
    (trimStr l).dropWhile jsWs = trimStr l := by
  cases h : trimStr l with
  | nil => rfl
  | cons a t =>
    obtain ⟨r, hr⟩ := trimStr_prefix_left l
    rw [h] at hr
    have hA : l.dropWhile jsWs = a :: (t ++ r) := by rw [← hr]; rfl
    have ha : jsWs a = false := head_not_of_dropWhile_eq jsWs l a (t ++ r) hA
    simp [List.dropWhile_cons, ha]

theorem trimStr_idem (l : List Char) : trimStr (trimStr l) = trimStr l := by
  have h1 : trimStr (trimStr l)
      = (((trimStr l).dropWhile jsWs).reverse.dropWhile jsWs).reverse := rfl
  rw [trimStr_dropWhile_left] at h1
  rw [h1, trimStr_reverse_eq, dropWhile_idem, ← trimStr_reverse_eq, List.reverse_reverse]

/-- C10: every complete line is trimmed of leading and trailing whitespace
before the `data: ` prefix test and before payload extraction, so
processing a line equals processing its trimmed form; concretely, a
CRLF-terminated line `"data: x\r"` yields `Data("x")` without the carriage
return, a line with leading whitespace before `data: ` still matches, and
a whitespace-only line emits nothing. -/
theorem C10_line_trimming :
    (∀ l : List Char, processLine l = processLine (trimStr l))
  ∧ processLine "data: x\r".toList = some (StreamEvent.data "x".toList)
  ∧ handleChunk [] "data: x\r\n".toList = ([], [StreamEvent.data "x".toList])
  ∧ processLine "  data: y".toList = some (StreamEvent.data "y".toList)
  ∧ processLine " \t\r ".toList = none := by
  refine ⟨?_, by decide, by decide, by decide, by decide⟩
  intro l
  unfold processLine
  rw [trimStr_idem]

theorem C7_beginStream_unavailable_witness :
    (streamStartHandler initialState "id-1").1 = "id-1"
  ∧ (streamStartHandler initialState "id-1").2.1
      = [StreamEvent.error "Backend not available", StreamEvent.endEvent]
  ∧ (streamStartHandler initialState "id-1").2.2 = false := by
  have h := C7_beginStream_unavailable initialState "id-1"
  have h2 := h.2 (Or.inl rfl)
  exact ⟨h.1, h2.1, h2.2⟩

/-- C2: `makeBackendRequest` always resolves with an envelope whose `ok`
field is true exactly when `200 <= status < 300` (the model is a total
function, so the call never rejects or throws); socket errors, timeouts,
responses with an undefined status code, and any call made while the
supervisor status is not `'healthy'` all yield `ok = false` with
`status = 0`. -/
theorem C2_envelope_uniform :
    (∀ (st : SupervisorState) (req : BackendRequest) (outcome : ReqOutcome)
        (parseOk : String → Bool),
        ((makeBackendRequest st req outcome parseOk).resp.ok = true
          ↔ (200 ≤ (makeBackendRequest st req outcome parseOk).resp.status
              ∧ (makeBackendRequest st req outcome parseOk).resp.status < 300)))
  ∧ (∀ st req m parseOk,
        (makeBackendRequest st req (.socketError m) parseOk).resp.ok = false
        ∧ (makeBackendRequest st req (.socketError m) parseOk).resp.status = 0)
  ∧ (∀ st req parseOk,
        (makeBackendRequest st req .timedOut parseOk).resp.ok = false
        ∧ (makeBackendRequest st req .timedOut parseOk).resp.status = 0)
  ∧ (∀ st req body parseOk,
        (makeBackendRequest st req (.response none body) parseOk).resp.ok = false
        ∧ (makeBackendRequest st req (.response none body) parseOk).resp.status = 0)
  ∧ (∀ st req outcome parseOk,
        st.backendStatus ≠ BackendStatus.healthy →
          (makeBackendRequest st req outcome parseOk).resp.ok = false
          ∧ (makeBackendRequest st req outcome parseOk).resp.status = 0) := by
  refine ⟨?_, ?_, ?_, ?_, ?_⟩
  · intro st req outcome parseOk
    unfold makeBackendRequest
    split
    · simp
    · cases outcome with
      | response sc body =>
        cases sc with
        | none => simp
        | some s => simp [Option.getD]
      | socketError m => simp
      | timedOut => simp
  · intro st req m parseOk
    unfold makeBackendRequest
    split <;> simp
  · intro st req parseOk
    unfold makeBackendRequest
    split <;> simp
  · intro st req body parseOk
    unfold makeBackendRequest
    split <;> simp
  · intro st req outcome parseOk h
    unfold makeBackendRequest
    rw [if_pos (Or.inr h)]
    exact ⟨rfl, rfl⟩

theorem C2_envelope_uniform_witness :
    (makeBackendRequest initialState
        ⟨"GET", "/health", none, [], none⟩ ReqOutcome.timedOut (fun _ => false)).resp.ok
        = false
  ∧ (makeBackendRequest initialState
        ⟨"GET", "/health", none, [], none⟩ ReqOutcome.timedOut (fun _ => false)).resp.status
        = 0 :=
  C2_envelope_uniform.2.2.2.2 initialState ⟨"GET", "/health", none, [], none⟩
    ReqOutcome.timedOut (fun _ => false) (by decide)

/-- C3: when the supervisor status is not `'healthy'` or no backend port is
recorded, `makeBackendRequest` resolves immediately with
`{ok:false, status:0, data:{error:"Backend not available"}}`, issues no
HTTP request, and leaves the supervisor state unchanged. -/
theorem C3_unavailable_short_circuit :
    ∀ (st : SupervisorState) (req : BackendRequest) (outcome : ReqOutcome)
      (parseOk : String → Bool),
      (st.backendStatus ≠ BackendStatus.healthy ∨ st.backendPort = none) →
        makeBackendRequest st req outcome parseOk
          = { resp := { ok := false, status := 0
                        data := RespData.errObj "Backend not available" }
              httpIssued := false
              stAfter := st } := by
  intro st req outcome parseOk h
  unfold makeBackendRequest
  rw [if_pos (Or.symm h)]

theorem C3_unavailable_short_circuit_witness :
    makeBackendRequest initialState ⟨"POST", "/chat", some "null", [], none⟩
        ReqOutcome.timedOut (fun _ => true)
      = { resp := { ok := false, status := 0
                    data := RespData.errObj "Backend not available" }
          httpIssued := false
          stAfter := initialState } :=
  C3_unavailable_short_circuit initialState ⟨"POST", "/chat", some "null", [], none⟩
    ReqOutcome.timedOut (fun _ => true) (Or.inl (by decide))

theorem pollFrom_never (health : Nat → Bool) (h : ∀ k, health k = false) :
    ∀ (fuel n : Nat), pollFrom health n fuel = .error healthTimeoutMsg := by
  intro fuel
  induction fuel with
  | zero =>
    intro n
    simp only [pollFrom, h]
    split <;> rfl
  | succ f ih =>
    intro n
    simp only [pollFrom, h]
    split
    · rfl
    · simpa using ih (n + 1)

theorem pollFrom_ok_health (health : Nat → Bool) :
    ∀ (fuel n k : Nat), pollFrom health n fuel = .ok k → health k = true := by
  intro fuel
  induction fuel with
  | zero =>
    intro n k hp
    simp only [pollFrom] at hp
    split at hp
    · exact absurd hp (by simp)
    · split at hp
      · cases hp
        assumption
      · exact absurd hp (by simp)
  | succ f ih =>
    intro n k hp
    simp only [pollFrom] at hp
    split at hp
    · exact absurd hp (by simp)
    · split at hp
      · cases hp
        assumption
      · exact ih (n + 1) k hp

theorem startPythonBackend_spawns (st : SupervisorState) (sp port : Nat)
    (health : Nat → Bool) : (startPythonBackend st sp port health).spawns = sp + 1 := by
  unfold startPythonBackend
  cases h : waitForHealthCheck health <;> simp [h]

theorem startPythonBackend_rc (st : SupervisorState) (sp port : Nat)
    (health : Nat → Bool) :
    (startPythonBackend st sp port health).st.restartCount = st.restartCount := by
  unfold startPythonBackend
  cases h : waitForHealthCheck health <;> simp [h]

theorem boot_inv (port : Nat) (health : Nat → Bool) : WorldInv (boot port health) := by
  unfold boot WorldInv
  simp [startPythonBackend_spawns, startPythonBackend_rc, initialState, MAX_RESTARTS]

theorem stepApp_inv (w : World) (e : AppEvent) (hw : WorldInv w) :
    WorldInv (stepApp w e) := by
  cases e with
  | procExit port health =>
    show WorldInv (crashExitListener w port health)
    unfold crashExitListener
    cases hflag : w.st.isIntentionalShutdown
    · simp only [Bool.false_eq_true, if_false]
      by_cases hrc : w.st.restartCount < MAX_RESTARTS
      · simp only [hrc, if_pos]
        refine ⟨?_, ?_⟩
        · simp only [startPythonBackend_spawns, startPythonBackend_rc]
          have := hw.1
          omega
        · simp only [startPythonBackend_rc]
          simp only [MAX_RESTARTS] at hrc ⊢
          omega
      · simpa [hrc] using hw
    · simpa using hw
  | beforeQuit alive =>
    show WorldInv (beforeQuitHandler w alive)
    unfold beforeQuitHandler
    cases alive <;> simpa using hw

theorem runEvents_inv (evs : List AppEvent) :
    ∀ w : World, WorldInv w → WorldInv (runEvents w evs) := by
  induction evs with
  | nil => intro w hw; exact hw
  | cons e es ih => intro w hw; exact ih _ (stepApp_inv w e hw)

/-- C1: starting from the initial launch, any sequence of unexpected exits
and quit events yields at most 4 spawns in total (1 launch + at most 3
restarts); an unexpected exit with the counter already at `MAX_RESTARTS`
only sets the status to `Unhealthy` and spawns nothing; an unexpected exit
below the cap increments the counter and spawns exactly once; and the
counter is never changed by the quit/stop path nor by `startPythonBackend`
itself (so a failed start does not increment it). -/
theorem C1_restart_budget :
    (∀ (port : Nat) (health : Nat → Bool) (evs : List AppEvent),
        (runEvents (boot port health) evs).spawns ≤ 4)
  ∧ (∀ (w : World) (port : Nat) (health : Nat → Bool),
        w.st.isIntentionalShutdown = false → MAX_RESTARTS ≤ w.st.restartCount →
          crashExitListener w port health
            = { w with st := { w.st with backendStatus := BackendStatus.unhealthy } })
  ∧ (∀ (w : World) (port : Nat) (health : Nat → Bool),
        w.st.isIntentionalShutdown = false → w.st.restartCount < MAX_RESTARTS →
          (crashExitListener w port health).spawns = w.spawns + 1
          ∧ (crashExitListener w port health).st.restartCount = w.st.restartCount + 1
          ∧ (crashExitListener w port health).st.isIntentionalShutdown = false)
  ∧ (∀ (w : World) (alive : Bool),
        (beforeQuitHandler w alive).st.restartCount = w.st.restartCount
        ∧ (beforeQuitHandler w alive).spawns = w.spawns)
  ∧ (∀ (st : SupervisorState) (sp port : Nat) (health : Nat → Bool),
        (startPythonBackend st sp port health).st.restartCount = st.restartCount) := by
  refine ⟨?_, ?_, ?_, ?_, startPythonBackend_rc⟩
  · intro port health evs
    have h := runEvents_inv evs (boot port health) (boot_inv port health)
    have h1 := h.1
    have h2 := h.2
    simp only [MAX_RESTARTS] at h2
    omega
  · intro w port health hflag hrc
    unfold crashExitListener
    rw [hflag]
    simp [Nat.not_lt.mpr hrc]
  · intro w port health hflag hrc
    unfold crashExitListener
    rw [hflag]
    simp only [Bool.false_eq_true, if_false, hrc, if_pos]
    refine ⟨startPythonBackend_spawns .., ?_, ?_⟩
    · rw [startPythonBackend_rc]
    · unfold startPythonBackend
      cases h : waitForHealthCheck health <;> simp [h, hflag]
  · intro w alive
    unfold beforeQuitHandler
    cases alive <;> simp

theorem C1_restart_budget_witness :
    (runEvents (boot 4000 (fun _ => true))
        [AppEvent.procExit 4001 (fun _ => true), AppEvent.procExit 4002 (fun _ => true),
         AppEvent.procExit 4003 (fun _ => true), AppEvent.procExit 4004 (fun _ => true),
         AppEvent.procExit 4005 (fun _ => true)]).spawns ≤ 4
  ∧ crashExitListener ⟨⟨some 4000, BackendStatus.healthy, false, 3⟩, 4⟩ 4010 (fun _ => true)
      = ⟨⟨some 4000, BackendStatus.unhealthy, false, 3⟩, 4⟩
  ∧ (crashExitListener ⟨⟨some 4000, BackendStatus.healthy, false, 0⟩, 1⟩ 4010
        (fun _ => true)).spawns = 2
  ∧ (crashExitListener ⟨⟨some 4000, BackendStatus.healthy, false, 0⟩, 1⟩ 4010
        (fun _ => true)).st.restartCount = 1 := by
  have hcap := C1_restart_budget.2.1 ⟨⟨some 4000, BackendStatus.healthy, false, 3⟩, 4⟩
    4010 (fun _ => true) rfl (by decide)
  have hinc := C1_restart_budget.2.2.1 ⟨⟨some 4000, BackendStatus.healthy, false, 0⟩, 1⟩
    4010 (fun _ => true) rfl (by decide)
  exact ⟨C1_restart_budget.1 4000 (fun _ => true) _, hcap, hinc.1, hinc.2.1⟩

/-- C8: a backend whose health polls never succeed makes
`waitForHealthCheck` reject with the 15 s timeout message (polling runs at
a 200 ms interval against a 15 000 ms budget), in which case `start()`
rejects with that error and the status stays `'starting'`; the status
becomes `'healthy'` only when some health poll succeeded. -/
theorem C8_health_timeout :
    ∀ (health : Nat → Bool) (st : SupervisorState) (spawns port : Nat),
      (∀ n, health n = false) →
        waitForHealthCheck health = .error healthTimeoutMsg
      ∧ (startPythonBackend st spawns port health).st.backendStatus = BackendStatus.starting
      ∧ (startPythonBackend st spawns port health).result = .error healthTimeoutMsg
      ∧ healthTimeoutMs = 15000 ∧ healthIntervalMs = 200
      ∧ (∀ (st2 : SupervisorState) (sp2 p2 : Nat) (h2 : Nat → Bool),
          (startPythonBackend st2 sp2 p2 h2).st.backendStatus = BackendStatus.healthy →
            ∃ n, h2 n = true) := by
  intro health st spawns port hnever
  have hw : waitForHealthCheck health = .error healthTimeoutMsg :=
    pollFrom_never health hnever _ 0
  refine ⟨hw, ?_, ?_, rfl, rfl, ?_⟩
  · unfold startPythonBackend
    rw [hw]
  · unfold startPythonBackend
    rw [hw]
  · intro st2 sp2 p2 h2 hst
    cases hh : waitForHealthCheck h2 with
    | ok k => exact ⟨k, pollFrom_ok_health h2 _ 0 k hh⟩
    | error e =>
      unfold startPythonBackend at hst
      rw [hh] at hst
      exact absurd hst (by simp)

theorem C8_health_timeout_witness :
    waitForHealthCheck (fun _ => false) = .error healthTimeoutMsg
  ∧ (startPythonBackend initialState 0 4567 (fun _ => false)).st.backendStatus
      = BackendStatus.starting := by
  have h := C8_health_timeout (fun _ => false) initialState 0 4567 (fun _ => rfl)
  exact ⟨h.1, h.2.1⟩

/-- C6 (bug): when the child process is still alive at the end of the 3 s
grace period (`exitsInGrace = false`), `stopPythonBackend` sends only
SIGTERM and never the promised SIGKILL: the force-kill timer tests
`!proc.killed`, but `ChildProcess.killed` was already set to `true` by the
successful `kill('SIGTERM')`, so the `proc.kill('SIGKILL')` branch is
unreachable and the claimed force-kill never happens. -/
theorem C6_stop_never_forcekills :
    stopPythonBackend (some { killed := false }) false
      = { signals := [KillSignal.sigterm], waitedForExit := true } := by
  decide

end Cerebro
